import Mathlib

/-!
# The fixed-rate executive of `sched.c`

A shallow embedding of the scheduler in `sched.c`: the two globals `tick` and
`frame`, the signal handler `catch_tick`, the body of the `while(true)` loop of
`run()`, and the timer set-up that precedes the loop.

* C `short` values are integers; every store into a `short` goes through
  `toShort`, the conversion to 16-bit two's complement.
* A task invocation is recorded as an entry of a call log, in the order in
  which the calls are made; calls are synchronous, so a call that is logged
  earlier has returned before a later one starts.
* The value of `tick` that a loop pass reads in `if( tick )` is an input of the
  pass. Signals that arrive while the pass is running are not modelled.
-/

namespace Sched

/-! ## Constants -/

/-- Timer period in nanoseconds of the 2000 Hz time base (`#define RATE2MHZ 500000L`). -/
def RATE2MHZ : Int := 500000

/-- The commanded rate (`#define RATECMD RATE2MHZ`). -/
def RATECMD : Int := RATE2MHZ

/-- Frames in one second (`#define FRAMEPERSEC 2000`). -/
def FRAMEPERSEC : Int := 2000

/-- The failure status of `<stdlib.h>`. -/
def EXIT_FAILURE : Int := 1

/-! ## Machine integers -/

/-- Conversion of an integer to a C `short`: reduction modulo `2^16` into
`[-32768, 32767]`. -/
def toShort (x : Int) : Int := (x + 32768) % 65536 - 32768

/-! ## State -/

/-- The tasks that `run()` calls. -/
inductive Call where
  | led_1_ctrl
  | button_ctrl
  deriving DecidableEq, Repr

/-- The two globals of the program, `short tick` and `short frame`. -/
structure Globals where
  tick : Int
  frame : Int
  deriving DecidableEq, Repr

/-- The globals as initialised: `short tick=0; short frame=0;`. -/
def Globals.initial : Globals := { tick := 0, frame := 0 }

/-- The frame index lies in `[0, FRAMEPERSEC)`. -/
def FrameInv (g : Globals) : Prop := 0 ≤ g.frame ∧ g.frame < FRAMEPERSEC

instance (g : Globals) : Decidable (FrameInv g) := by
  unfold FrameInv; infer_instance

/-! ## The signal handler -/

/-- The handler `catch_tick()`: `tick++` on a `short`. -/
def catch_tick (g : Globals) : Globals :=
  { g with tick := toShort (g.tick + 1) }

/-- The handler run `k` times in a row, with no loop pass in between. -/
def deliver : Nat → Globals → Globals
  | 0, g => g
  | k + 1, g => deliver k (catch_tick g)

/-! ## The loop body of `run()` -/

/-- One pass of the `while(true)` body of `run()`, from the globals as the pass
finds them; returns the globals at `pause()` and the calls made, in order.

```
if( tick ){
    frame++;
    if( frame >= FRAMEPERSEC ){ led_1_ctrl(); frame = 0; }
    button_ctrl();
    tick = 0;
}
pause();
``` -/
def loop_pass (g : Globals) : Globals × List Call :=
  if g.tick ≠ 0 then
    let g1 : Globals := { g with frame := toShort (g.frame + 1) }
    let r : Globals × List Call :=
      if g1.frame ≥ FRAMEPERSEC then
        ({ g1 with frame := 0 }, [Call.led_1_ctrl])
      else
        (g1, [])
    ({ r.1 with tick := 0 }, r.2 ++ [Call.button_ctrl])
  else
    (g, [])

/-- Consecutive loop passes. The list gives, for each pass, the value of `tick`
that the pass reads (what the handler has left there since the last pass). -/
def run_passes : List Int → Globals → Globals × List Call
  | [], g => (g, [])
  | k :: ks, g =>
    let r1 := loop_pass { g with tick := k }
    let r2 := run_passes ks r1.1
    (r2.1, r1.2 ++ r2.2)

/-! ## `run()` with its timer set-up -/

/-- What is seen of an execution of `run()`. -/
structure RunResult where
  /-- Lines printed by `run()`. -/
  output : List String
  /-- Status passed to `exit`, if `run()` has called it. -/
  exit_status : Option Int
  /-- Number of loop passes executed. -/
  passes : Nat
  /-- The globals at the end. -/
  globals : Globals
  /-- Calls of tasks, in order. -/
  calls : List Call
  deriving DecidableEq, Repr

/-- The function `run()`. The values returned by `timer_create` and
`timer_settime` are inputs; the value of `timer_create` is not looked at by the
source. The loop never ends, so an execution is followed for the finitely many
passes whose observed ticks are listed.

```
timer_create( CLOCK_MONOTONIC, &sig, &timer);
...
if( timer_settime( timer, 0, &timer_info, NULL )){
    printf("Could not set timer!\n");
    sleep(1);
    exit(EXIT_FAILURE);
}
while(true){ ... }
``` -/
def run (timer_create_ret timer_settime_ret : Int) (g : Globals) (obs : List Int) :
    RunResult :=
  let _created := timer_create_ret
  if timer_settime_ret ≠ 0 then
    { output := ["Could not set timer!\n"], exit_status := some EXIT_FAILURE,
      passes := 0, globals := g, calls := [] }
  else
    let r := run_passes obs g
    { output := [], exit_status := none, passes := obs.length,
      globals := r.1, calls := r.2 }

/-! ## Properties used to word the claims -/

/-- In the log `l`, a call of `a` is made, and it is made before the first call
of `b`, which is made as well. -/
def calledBefore (a b : Call) (l : List Call) : Prop :=
  a ∈ l ∧ b ∈ l ∧ l.indexOf a < l.indexOf b

instance (a b : Call) (l : List Call) : Decidable (calledBefore a b l) := by
  unfold calledBefore; infer_instance

/-- A counter of dropped ticks kept in the state of the executive: a quantity
read off the globals that the handler does not touch (it moves at reset time
only), that a pass reading `tick = k ≥ 1` increases by `k - 1`, and that a pass
reading `tick = 0` leaves alone. -/
def IsOverrunCounter (counter : Globals → Int) : Prop :=
  (∀ g, counter (catch_tick g) = counter g) ∧
  (∀ g, 1 ≤ g.tick → counter (loop_pass g).1 = counter g + (g.tick - 1)) ∧
  (∀ g, g.tick = 0 → counter (loop_pass g).1 = counter g)

/-! ## Auxiliary facts -/

theorem toShort_eq_self (x : Int) (h1 : -32768 ≤ x) (h2 : x ≤ 32767) : toShort x = x := by
  unfold toShort; omega

/-- A serviced pass from a frame inside the invariant, in closed form. -/
theorem loop_pass_serviced (k f : Int) (hk : k ≠ 0) (h0 : 0 ≤ f) (h1 : f < 2000) :
    loop_pass ⟨k, f⟩ =
      (⟨0, (f + 1) % 2000⟩,
        if f = 1999 then [Call.led_1_ctrl, Call.button_ctrl] else [Call.button_ctrl]) := by
  have hs : toShort (f + 1) = f + 1 := toShort_eq_self _ (by omega) (by omega)
  by_cases hf : f = 1999
  · subst hf
    simp [loop_pass, hk, FRAMEPERSEC, toShort]
  · have hlt : ¬ (f + 1 ≥ 2000) := by omega
    have hm : (f + 1) % 2000 = f + 1 := by omega
    simp [loop_pass, hk, FRAMEPERSEC, hs, hlt, hm, hf]

/-- A pass that reads `tick = 0` does nothing. -/
theorem loop_pass_idle (f : Int) : loop_pass ⟨0, f⟩ = (⟨0, f⟩, []) := by
  simp [loop_pass]

/-- The state reached and the calls counted over serviced passes, from a frame
inside the invariant. -/
theorem run_passes_serviced (obs : List Int) :
    ∀ (t f : Int), (∀ k ∈ obs, k ≠ 0) → 0 ≤ f → f < 2000 →
      (obs ≠ [] → (run_passes obs ⟨t, f⟩).1.tick = 0) ∧
      (run_passes obs ⟨t, f⟩).1.frame = (f + obs.length) % 2000 ∧
      (((run_passes obs ⟨t, f⟩).2.count Call.led_1_ctrl : Nat) : Int)
        = (f + obs.length) / 2000 ∧
      (run_passes obs ⟨t, f⟩).2.count Call.button_ctrl = obs.length := by
  induction obs with
  | nil =>
    intro t f _ h0 h1
    refine ⟨fun h => absurd rfl h, ?_, ?_, ?_⟩
    · simp [run_passes]; omega
    · simp [run_passes]; omega
    · simp [run_passes]
  | cons k ks ih =>
    intro t f hk h0 h1
    have hk0 : k ≠ 0 := hk k (List.mem_cons_self _ _)
    have hks : ∀ j ∈ ks, j ≠ 0 := fun j hj => hk j (List.mem_cons_of_mem _ hj)
    have hp := loop_pass_serviced k f hk0 h0 h1
    obtain ⟨ih1, ih2, ih3, ih4⟩ := ih 0 ((f + 1) % 2000) hks (by omega) (by omega)
    have hrun : run_passes (k :: ks) ⟨t, f⟩ =
        ((run_passes ks ⟨0, (f + 1) % 2000⟩).1,
          (if f = 1999 then [Call.led_1_ctrl, Call.button_ctrl] else [Call.button_ctrl])
            ++ (run_passes ks ⟨0, (f + 1) % 2000⟩).2) := by
      simp only [run_passes, hp]
    rw [hrun]
    refine ⟨fun _ => ?_, ?_, ?_, ?_⟩
    · by_cases hnil : ks = []
      · subst hnil; simp [run_passes]
      · exact ih1 hnil
    · simp only [ih2, List.length_cons]; push_cast; omega
    · simp only [List.count_append, Nat.cast_add, ih3, List.length_cons]
      by_cases hf : f = 1999
      · subst hf; simp; omega
      · simp [hf]; omega
    · simp only [List.count_append, ih4, List.length_cons]
      by_cases hf : f = 1999
      · subst hf; simp; omega
      · simp [hf]; omega

/-- The handler run `k` times adds `k` to `tick`, modulo `2^16`, and leaves
`frame` alone. -/
theorem deliver_spec (k : Nat) : ∀ t f : Int, -32768 ≤ t → t ≤ 32767 →
    deliver k ⟨t, f⟩ = ⟨toShort (t + k), f⟩ := by
  induction k with
  | zero =>
    intro t f h1 h2
    simp [deliver, toShort_eq_self t h1 h2]
  | succ n ih =>
    intro t f h1 h2
    have hr : deliver (n + 1) ⟨t, f⟩ = deliver n ⟨toShort (t + 1), f⟩ := rfl
    rw [hr, ih (toShort (t + 1)) f (by unfold toShort; omega) (by unfold toShort; omega)]
    congr 1
    unfold toShort
    push_cast
    omega

/-- A serviced pass, stated on the globals as found. -/
theorem loop_pass_of_tick (g : Globals) (hk : g.tick ≠ 0) (hinv : FrameInv g) :
    loop_pass g =
      (⟨0, (g.frame + 1) % 2000⟩,
        if g.frame = 1999 then [Call.led_1_ctrl, Call.button_ctrl] else [Call.button_ctrl]) := by
  obtain ⟨t, f⟩ := g
  exact loop_pass_serviced t f hk hinv.1 hinv.2

/-- The value of `tick` read by a serviced pass has no effect beyond being
nonzero. -/
theorem loop_pass_tick_irrelevant (k f : Int) (hk : k ≠ 0) :
    loop_pass ⟨k, f⟩ = loop_pass ⟨1, f⟩ := by
  by_cases h : FRAMEPERSEC ≤ toShort (f + 1) <;> simp [loop_pass, hk, h]

/-- One pass keeps the frame invariant, whatever `tick` it reads. -/
theorem loop_pass_frameInv (g : Globals) (hinv : FrameInv g) : FrameInv (loop_pass g).1 := by
  by_cases hk : g.tick = 0
  · obtain ⟨t, f⟩ := g
    simp only at hk
    subst hk
    rw [loop_pass_idle]
    exact hinv
  · rw [loop_pass_of_tick g hk hinv]
    unfold FrameInv FRAMEPERSEC
    simp only
    omega

/-- Any number of passes keeps the frame invariant. -/
theorem run_passes_frameInv (obs : List Int) :
    ∀ g : Globals, FrameInv g → FrameInv (run_passes obs g).1 := by
  induction obs with
  | nil => intro g hinv; exact hinv
  | cons k ks ih =>
    intro g hinv
    have h1 : FrameInv (loop_pass { g with tick := k }).1 :=
      loop_pass_frameInv _ hinv
    exact ih _ h1

/-! ## The claims -/

/-- C1: from the initial globals (`frame = 0`), after `n` loop passes that each
read a nonzero `tick`, `frame` equals `n mod FRAMEPERSEC`. -/
theorem C1_frame_is_count_mod (n : Nat) (obs : List Int)
    (hlen : obs.length = n) (hobs : ∀ k ∈ obs, k ≠ 0) :
    (run_passes obs Globals.initial).1.frame = (n : Int) % FRAMEPERSEC := by
  have h := (run_passes_serviced obs 0 0 hobs (by omega) (by omega)).2.1
  subst hlen
  unfold Globals.initial FRAMEPERSEC
  rw [h]
  simp

theorem C1_frame_is_count_mod_witness :
    (run_passes [1, 3, 1] Globals.initial).1.frame = ((3 : Nat) : Int) % FRAMEPERSEC :=
  C1_frame_is_count_mod 3 [1, 3, 1] (by decide) (by decide)

/-- C2: `0 ≤ frame < FRAMEPERSEC` holds of the initial globals, is kept by every
loop pass whatever value of `tick` the pass reads, and so holds after any
sequence of passes from the initial globals. -/
theorem C2_frame_invariant :
    FrameInv Globals.initial ∧
    (∀ (k : Int) (g : Globals), FrameInv g → FrameInv (loop_pass { g with tick := k }).1) ∧
    (∀ obs : List Int, FrameInv (run_passes obs Globals.initial).1) := by
  have h0 : FrameInv Globals.initial := by decide
  exact ⟨h0, fun k g hinv => loop_pass_frameInv _ hinv,
    fun obs => run_passes_frameInv obs _ h0⟩

theorem C2_frame_invariant_witness :
    FrameInv (loop_pass { ({ tick := 0, frame := 1999 } : Globals) with tick := 3 }).1 :=
  C2_frame_invariant.2.1 3 ⟨0, 1999⟩ (by decide)

/-- C3: `button_ctrl` is called exactly once in a loop pass that reads a nonzero
`tick`, and exactly `n` times over `n` such passes, from any globals that
satisfy the frame invariant. -/
theorem C3_button_once_per_serviced_pass (n : Nat) (obs : List Int) (g : Globals)
    (hlen : obs.length = n) (hobs : ∀ k ∈ obs, k ≠ 0) (hinv : FrameInv g) :
    (∀ k : Int, k ≠ 0 →
      (loop_pass { g with tick := k }).2.count Call.button_ctrl = 1) ∧
    (run_passes obs g).2.count Call.button_ctrl = n := by
  obtain ⟨t, f⟩ := g
  refine ⟨fun k hk => ?_, ?_⟩
  · rw [loop_pass_serviced k f hk hinv.1 hinv.2]
    by_cases hf : f = 1999 <;> simp [hf]
  · rw [(run_passes_serviced obs t f hobs hinv.1 hinv.2).2.2.2, hlen]

theorem C3_button_once_per_serviced_pass_witness :
    (∀ k : Int, k ≠ 0 →
      (loop_pass { ({ tick := 0, frame := 1998 } : Globals) with tick := k }).2.count
        Call.button_ctrl = 1) ∧
    (run_passes [2, 1, -1] ⟨0, 1998⟩).2.count Call.button_ctrl = 3 :=
  C3_button_once_per_serviced_pass 3 [2, 1, -1] ⟨0, 1998⟩ (by decide) (by decide) (by decide)

/-- C4: from any globals with `0 ≤ frame < 2000`, over 2000 consecutive loop passes
that each read a nonzero `tick`, `led_1_ctrl` is called exactly once and
`button_ctrl` exactly 2000 times, and the frame is back where it started; a
serviced pass calls `led_1_ctrl` once if it leaves `frame = 0` and not at all
otherwise. -/
theorem C4_led_once_per_rollover (obs : List Int) (g : Globals)
    (hlen : obs.length = 2000) (hobs : ∀ k ∈ obs, k ≠ 0) (hinv : FrameInv g) :
    (run_passes obs g).2.count Call.led_1_ctrl = 1 ∧
    (run_passes obs g).2.count Call.button_ctrl = 2000 ∧
    (run_passes obs g).1.frame = g.frame ∧
    (∀ k : Int, k ≠ 0 →
      (loop_pass { g with tick := k }).2.count Call.led_1_ctrl =
        if (loop_pass { g with tick := k }).1.frame = 0 then 1 else 0) := by
  obtain ⟨t, f⟩ := g
  obtain ⟨h0, h1⟩ := hinv
  unfold FRAMEPERSEC at h1
  simp only at h0 h1
  obtain ⟨_, hfr, hled, hbut⟩ := run_passes_serviced obs t f hobs h0 h1
  rw [hlen] at hfr hled hbut
  refine ⟨?_, hbut, ?_, fun k hk => ?_⟩
  · have : (f + ((2000 : Nat) : Int)) / 2000 = 1 := by push_cast; omega
    rw [this] at hled
    exact_mod_cast hled
  · rw [hfr]; push_cast; omega
  · rw [loop_pass_serviced k f hk h0 h1]
    by_cases hf : f = 1999
    · subst hf; simp
    · have : ¬ ((f + 1) % 2000 = 0) := by omega
      simp [hf, this]

theorem C4_led_once_per_rollover_witness :
    (run_passes (List.replicate 2000 1) Globals.initial).2.count Call.led_1_ctrl = 1 ∧
    (run_passes (List.replicate 2000 1) Globals.initial).2.count Call.button_ctrl = 2000 ∧
    (run_passes (List.replicate 2000 1) Globals.initial).1.frame = Globals.initial.frame ∧
    (∀ k : Int, k ≠ 0 →
      (loop_pass { Globals.initial with tick := k }).2.count Call.led_1_ctrl =
        if (loop_pass { Globals.initial with tick := k }).1.frame = 0 then 1 else 0) :=
  C4_led_once_per_rollover (List.replicate 2000 1) Globals.initial
    (List.length_replicate 2000 1)
    (by intro k hk; rw [List.eq_of_mem_replicate hk]; decide)
    (by decide)

/-- C5: for every value `k ≥ 1` of `tick` that a loop pass reads, the pass ends
in the globals and makes the calls of a pass that reads `tick = 1`: the frame is
advanced once (to `(frame + 1) mod FRAMEPERSEC` under the frame invariant),
`button_ctrl` is called exactly once, and `tick` is left at `0`. -/
theorem C5_drop_overrun (k : Int) (g : Globals) (hk : 1 ≤ k) :
    loop_pass { g with tick := k } = loop_pass { g with tick := 1 } ∧
    (loop_pass { g with tick := k }).1.tick = 0 ∧
    (loop_pass { g with tick := k }).2.count Call.button_ctrl = 1 ∧
    (FrameInv g → (loop_pass { g with tick := k }).1.frame = (g.frame + 1) % FRAMEPERSEC) := by
  obtain ⟨t, f⟩ := g
  have hk0 : k ≠ 0 := by omega
  refine ⟨loop_pass_tick_irrelevant k f hk0, ?_, ?_, fun hinv => ?_⟩
  · by_cases h : FRAMEPERSEC ≤ toShort (f + 1) <;> simp [loop_pass, hk0, h]
  · by_cases h : FRAMEPERSEC ≤ toShort (f + 1) <;> simp [loop_pass, hk0, h]
  · rw [loop_pass_serviced k f hk0 hinv.1 hinv.2]
    rfl

theorem C5_drop_overrun_witness :
    loop_pass { ({ tick := 0, frame := 41 } : Globals) with tick := 3 }
      = loop_pass { ({ tick := 0, frame := 41 } : Globals) with tick := 1 } ∧
    (loop_pass { ({ tick := 0, frame := 41 } : Globals) with tick := 3 }).1.tick = 0 ∧
    (loop_pass { ({ tick := 0, frame := 41 } : Globals) with tick := 3 }).2.count
      Call.button_ctrl = 1 ∧
    (FrameInv ⟨0, 41⟩ →
      (loop_pass { ({ tick := 0, frame := 41 } : Globals) with tick := 3 }).1.frame
        = ((⟨0, 41⟩ : Globals).frame + 1) % FRAMEPERSEC) :=
  C5_drop_overrun 3 ⟨0, 41⟩ (by decide)

/-- C6, as worded, fails: the pass that reads `tick = 1` at `frame = 1999` rolls
the frame over to `0` and calls `led_1_ctrl` first and `button_ctrl` second, so
`button_ctrl` is not called before `led_1_ctrl`. -/
theorem C6_counterexample :
    (loop_pass ⟨1, 1999⟩).1.frame = 0 ∧
    (loop_pass ⟨1, 1999⟩).2 = [Call.led_1_ctrl, Call.button_ctrl] ∧
    ¬ calledBefore Call.button_ctrl Call.led_1_ctrl (loop_pass ⟨1, 1999⟩).2 := by
  decide

/-- C6, amended: on every loop pass that reads a nonzero `tick` and rolls the
frame over to `0`, the calls made are `led_1_ctrl` and then `button_ctrl`, each
once: the rollover task completes before the every-tick task begins. -/
theorem C6_rollover_order (g : Globals) (hk : g.tick ≠ 0) (hinv : FrameInv g)
    (hroll : (loop_pass g).1.frame = 0) :
    (loop_pass g).2 = [Call.led_1_ctrl, Call.button_ctrl] ∧
    calledBefore Call.led_1_ctrl Call.button_ctrl (loop_pass g).2 := by
  have hp := loop_pass_of_tick g hk hinv
  have hf : g.frame = 1999 := by
    rw [hp] at hroll
    have h0 := hinv.1
    have h1 := hinv.2
    unfold FRAMEPERSEC at h1
    simp only at hroll
    omega
  rw [hp, if_pos hf]
  refine ⟨rfl, ?_⟩
  show calledBefore Call.led_1_ctrl Call.button_ctrl [Call.led_1_ctrl, Call.button_ctrl]
  decide

theorem C6_rollover_order_witness :
    (loop_pass ⟨2, 1999⟩).2 = [Call.led_1_ctrl, Call.button_ctrl] ∧
    calledBefore Call.led_1_ctrl Call.button_ctrl (loop_pass ⟨2, 1999⟩).2 :=
  C6_rollover_order ⟨2, 1999⟩ (by decide) (by decide) (by decide)

/-- C7, as worded, fails: after 32768 runs of `catch_tick` from `tick = 0` the
value of `tick` is `-32768`, which is not `≥ 1`. -/
theorem C7_counterexample :
    (deliver 32768 ⟨0, 0⟩).tick = -32768 ∧ ¬ (1 ≤ (deliver 32768 ⟨0, 0⟩).tick) := by
  have hd : deliver 32768 ⟨0, 0⟩ = ⟨-32768, 0⟩ := by
    rw [deliver_spec 32768 0 0 (by omega) (by omega)]
    congr 1
  rw [hd]
  refine ⟨rfl, ?_⟩
  show ¬ (1 ≤ (-32768 : Int))
  omega

/-- C7, amended: for `1 ≤ k ≤ 32767`, after `k` runs of `catch_tick` from
`tick = 0` with no loop pass in between, the value of `tick` is `k`; it is `≥ 1`
and nonzero, so the next pass is serviced, and it is `1` when `k = 1`. -/
theorem C7_tick_after_deliveries (k : Nat) (f : Int) (h1 : 1 ≤ k) (h2 : k ≤ 32767) :
    (deliver k ⟨0, f⟩).tick = k ∧
    1 ≤ (deliver k ⟨0, f⟩).tick ∧
    (loop_pass (deliver k ⟨0, f⟩)).1.tick = 0 ∧
    (loop_pass (deliver k ⟨0, f⟩)).2.count Call.button_ctrl = 1 ∧
    (deliver 1 ⟨0, f⟩).tick = 1 := by
  have hd : deliver k ⟨0, f⟩ = ⟨(k : Int), f⟩ := by
    have hs : toShort (0 + (k : Int)) = k := by
      rw [toShort_eq_self _ (by omega) (by omega)]
      omega
    rw [deliver_spec k 0 f (by omega) (by omega), hs]
  have hk0 : (k : Int) ≠ 0 := by omega
  rw [hd]
  refine ⟨rfl, by simp only; omega, ?_, ?_, by simp [deliver, catch_tick, toShort]⟩
  · by_cases h : FRAMEPERSEC ≤ toShort (f + 1) <;> simp [loop_pass, hk0, h]
  · by_cases h : FRAMEPERSEC ≤ toShort (f + 1) <;> simp [loop_pass, hk0, h]

theorem C7_tick_after_deliveries_witness :
    (deliver 3 ⟨0, 0⟩).tick = ((3 : Nat) : Int) ∧
    1 ≤ (deliver 3 ⟨0, 0⟩).tick ∧
    (loop_pass (deliver 3 ⟨0, 0⟩)).1.tick = 0 ∧
    (loop_pass (deliver 3 ⟨0, 0⟩)).2.count Call.button_ctrl = 1 ∧
    (deliver 1 ⟨0, 0⟩).tick = 1 :=
  C7_tick_after_deliveries 3 0 (by decide) (by decide)

/-- C8, as worded, fails: with `timer_create` reporting failure (`-1`) and
`timer_settime` reporting success (`0`), `run()` prints nothing, does not exit,
and goes on to execute a loop pass in which `button_ctrl` is called. -/
theorem C8_counterexample :
    run (-1) 0 Globals.initial [1] =
      { output := [], exit_status := none, passes := 1, globals := ⟨0, 1⟩,
        calls := [Call.button_ctrl] } := by
  decide

/-- C8, amended: whenever `timer_settime` reports failure (a nonzero value),
`run()` prints the diagnostic and exits with `EXIT_FAILURE`, which is not `0`,
without executing a loop pass or calling a task; when `timer_create` and
`timer_settime` both report success (`0`), it does not exit and executes the
loop passes. -/
theorem C8_settime_failure_is_fatal (created armed : Int) (g : Globals) (obs : List Int)
    (hfail : armed ≠ 0) :
    run created armed g obs =
      { output := ["Could not set timer!\n"], exit_status := some EXIT_FAILURE,
        passes := 0, globals := g, calls := [] } ∧
    EXIT_FAILURE ≠ 0 ∧
    run 0 0 g obs =
      { output := [], exit_status := none, passes := obs.length,
        globals := (run_passes obs g).1, calls := (run_passes obs g).2 } := by
  refine ⟨?_, by decide, ?_⟩
  · simp [run, hfail]
  · simp [run]

theorem C8_settime_failure_is_fatal_witness :
    run 0 (-1) Globals.initial [1, 1] =
      { output := ["Could not set timer!\n"], exit_status := some EXIT_FAILURE,
        passes := 0, globals := Globals.initial, calls := [] } ∧
    EXIT_FAILURE ≠ 0 ∧
    run 0 0 Globals.initial [1, 1] =
      { output := [], exit_status := none, passes := ([1, 1] : List Int).length,
        globals := (run_passes [1, 1] Globals.initial).1,
        calls := (run_passes [1, 1] Globals.initial).2 } :=
  C8_settime_failure_is_fatal 0 (-1) Globals.initial [1, 1] (by decide)

/-- C9, as worded, fails: no quantity read off the globals of the executive is an
overrun counter. The passes that read `tick = 3` and `tick = 1` at the same
frame end in the same globals, so a counter that the handler leaves alone cannot
have grown by `2` in the one and by `0` in the other. -/
theorem C9_counterexample : ¬ ∃ counter : Globals → Int, IsOverrunCounter counter := by
  rintro ⟨counter, hc, hp, _⟩
  have e1 : counter (loop_pass ⟨1, 0⟩).1 = counter ⟨1, 0⟩ + (1 - 1) :=
    hp ⟨1, 0⟩ (by decide)
  have e3 : counter (loop_pass ⟨3, 0⟩).1 = counter ⟨3, 0⟩ + (3 - 1) :=
    hp ⟨3, 0⟩ (by decide)
  have h2 : counter ⟨2, 0⟩ = counter ⟨1, 0⟩ := hc ⟨1, 0⟩
  have h3 : counter ⟨3, 0⟩ = counter ⟨2, 0⟩ := hc ⟨2, 0⟩
  have hsame : (loop_pass ⟨3, 0⟩).1 = (loop_pass ⟨1, 0⟩).1 := by decide
  rw [hsame] at e3
  omega

/-- C9, amended: the executive keeps no overrun counter. A loop pass that reads
`tick = k ≥ 1` ends in the same globals and makes the same calls as a pass that
reads `tick = 1`, so the `k - 1` dropped ticks are recorded nowhere; a pass that
reads `tick = 0` changes nothing. -/
theorem C9_backlog_not_recorded (k : Int) (g : Globals) (hk : 1 ≤ k) :
    loop_pass { g with tick := k } = loop_pass { g with tick := 1 } ∧
    loop_pass { g with tick := 0 } = ({ g with tick := 0 }, []) := by
  obtain ⟨t, f⟩ := g
  exact ⟨loop_pass_tick_irrelevant k f (by omega), loop_pass_idle f⟩

theorem C9_backlog_not_recorded_witness :
    loop_pass { ({ tick := 0, frame := 7 } : Globals) with tick := 3 }
      = loop_pass { ({ tick := 0, frame := 7 } : Globals) with tick := 1 } ∧
    loop_pass { ({ tick := 0, frame := 7 } : Globals) with tick := 0 }
      = ({ ({ tick := 0, frame := 7 } : Globals) with tick := 0 }, []) :=
  C9_backlog_not_recorded 3 ⟨0, 7⟩ (by decide)

/-- C10: a loop pass that reads `tick = 0` leaves `frame` and `tick` as they were
and calls neither `led_1_ctrl` nor `button_ctrl`. -/
theorem C10_idle_pass_is_noop (g : Globals) (hidle : g.tick = 0) :
    (loop_pass g).1 = g ∧
    (loop_pass g).1.frame = g.frame ∧
    (loop_pass g).1.tick = g.tick ∧
    (loop_pass g).2 = [] ∧
    Call.led_1_ctrl ∉ (loop_pass g).2 ∧
    Call.button_ctrl ∉ (loop_pass g).2 := by
  obtain ⟨t, f⟩ := g
  simp only at hidle
  subst hidle
  rw [loop_pass_idle]
  simp

theorem C10_idle_pass_is_noop_witness :
    (loop_pass ⟨0, 1999⟩).1 = ⟨0, 1999⟩ ∧
    (loop_pass ⟨0, 1999⟩).1.frame = (⟨0, 1999⟩ : Globals).frame ∧
    (loop_pass ⟨0, 1999⟩).1.tick = (⟨0, 1999⟩ : Globals).tick ∧
    (loop_pass ⟨0, 1999⟩).2 = [] ∧
    Call.led_1_ctrl ∉ (loop_pass ⟨0, 1999⟩).2 ∧
    Call.button_ctrl ∉ (loop_pass ⟨0, 1999⟩).2 :=
  C10_idle_pass_is_noop ⟨0, 1999⟩ (by decide)

end Sched
